import Mathlib

/-!
Verification development for the ms365-access backend: a shallow embedding of
the credential lifecycle and access-control gateway (crypto module, token
vault, access gate, background job executor) together with theorems settling
the specification claims.

Conventions of the embedding:
- timestamps are seconds as integers (the Python code compares datetimes);
- database tables are lists of row structures; an SQLAlchemy commit that can
  fail is made explicit through a boolean (or a schedule of booleans);
- Python dictionaries returned by the upstream identity provider are
  structures of Option fields (a missing dictionary key is none);
- fallible Python code (raise) returns Except values.
-/

namespace MS365

/-! ## Crypto module (src/backend/app/crypto.py) -/

/-- Modelled from the spec: SHA-256 is a one-way hash from the hashlib and
cryptography libraries, which are outside the repository. It is modelled as
an injective tagging of the input, which captures determinism and
collision-freeness of the ideal hash. -/
def sha256_digest (s : String) : String :=
  "sha256:" ++ s

/-- Symmetric key as produced by PBKDF2-HMAC-SHA256: determined by the
password, the salt and the iteration count. Modelled from the spec: the ideal
key-derivation function is injective in its inputs, captured by keeping the
inputs as the key value. -/
structure SymKey where
  password : String
  salt : String
  iterations : Nat
deriving DecidableEq, Repr

/-- Fernet ciphertext in the ideal-cipher model: the ciphertext produced by an
authenticated symmetric encryption determines the key and the plaintext. -/
structure Ciphertext where
  key : SymKey
  plaintext : String
deriving DecidableEq, Repr

/-- Decryption failure of the authenticated encryption (cryptography.fernet
raises InvalidToken; the spec calls this CryptoError). -/
inductive CryptoError where
  | invalidToken
deriving DecidableEq, Repr

/-- Modelled from the spec: Fernet authenticated encryption (the cryptography
library is outside the repository). Encryption pairs the plaintext with the
key. -/
def fernet_encrypt (key : SymKey) (plaintext : String) : Ciphertext :=
  { key := key, plaintext := plaintext }

/-- Modelled from the spec: Fernet authenticated decryption checks integrity,
so decrypting under any key other than the encrypting key fails with
CryptoError rather than returning corrupted plaintext. -/
def fernet_decrypt (key : SymKey) (c : Ciphertext) : Except CryptoError String :=
  if c.key = key then .ok c.plaintext else .error .invalidToken

/-- Embedding of crypto._derive_salt: a deterministic salt, the SHA-256 digest
of a fixed prefix concatenated with the operator secret. -/
def _derive_salt (secret_key : String) : String :=
  sha256_digest ("ms365-access-salt-derivation:" ++ secret_key)

/-- Embedding of crypto.get_fernet: derive the Fernet key from the operator
secret via PBKDF2-HMAC-SHA256 with the derived salt and 100000 iterations.
The ambient settings.secret_key is passed explicitly. -/
def get_fernet (secret_key : String) : SymKey :=
  { password := secret_key, salt := _derive_salt secret_key, iterations := 100000 }

/-- Embedding of crypto.encrypt_token. -/
def encrypt_token (secret_key : String) (token : String) : Ciphertext :=
  fernet_encrypt (get_fernet secret_key) token

/-- Embedding of crypto.decrypt_token. -/
def decrypt_token (secret_key : String) (encrypted_token : Ciphertext) : Except CryptoError String :=
  fernet_decrypt (get_fernet secret_key) encrypted_token

/-! ## Access gate (src/backend/app/dependencies.py, routers/api_keys.py) -/

/-- HTTP error raised by a handler (fastapi HTTPException), identified by its
status code constructor and detail message. -/
inductive HttpError where
  | unauthorized (detail : String)
  | forbidden (detail : String)
  | badRequest (detail : String)
  | conflict (detail : String)
  | notFound (detail : String)
deriving DecidableEq, Repr

/-- Row of the api_keys table (models.ApiKey). The permissions Text column
holds a JSON array of permission strings; it is modelled as the decoded list.
The created_at column is omitted: no claim concerns it. -/
structure ApiKeyRow where
  id : Nat
  key_hash : String
  name : String
  permissions : List String
  tier : Option String
  last_used_at : Option Int
  is_active : Bool
deriving DecidableEq, Repr

/-- Outcome of a request handler: a returned value, an HTTPException with a
status, or an uncaught exception propagating out of the handler (which the
framework turns into a 500 response — the request fails). -/
inductive ReqOutcome (α : Type) where
  | ok (value : α)
  | httpError (err : HttpError)
  | raised (msg : String)
deriving DecidableEq, Repr

/-- Embedding of dependencies.verify_api_key: SHA-256 hash the presented
bearer secret, look up an active ApiKey row by hash; 401 if none. On success
set last_used_at to now and commit. The commit is an awaited database commit
with no exception handler, so its failure (commit_ok = false) propagates and
the updated table is not persisted. Returns the key row and the table after
the call. -/
def verify_api_key (db : List ApiKeyRow) (raw_key : String) (now : Int)
    (commit_ok : Bool) : ReqOutcome (ApiKeyRow × List ApiKeyRow) :=
  let key_hash := sha256_digest raw_key
  match db.find? (fun k => k.key_hash == key_hash && k.is_active) with
  | none => .httpError (.unauthorized "Invalid or inactive API key.")
  | some api_key =>
    let updated := { api_key with last_used_at := some now }
    if commit_ok then
      .ok (updated, db.map (fun k => if k.id == api_key.id then updated else k))
    else
      .raised "database commit failed"

/-- Embedding of dependencies.VALID_PERMISSIONS. -/
def VALID_PERMISSIONS : List String :=
  ["read:mail", "read:calendar", "read:contacts", "read:files",
   "write:draft", "write:mail", "write:calendar", "write:contacts",
   "write:files", "admin"]

/-- Embedding of dependencies.TIER_PERMISSIONS. -/
def TIER_PERMISSIONS : List (String × List String) :=
  [("admin", ["admin"]),
   ("openclaw",
    ["read:mail", "write:draft", "read:calendar", "write:calendar",
     "read:contacts", "write:contacts"])]

/-- Embedding of the inner dependency closure of
dependencies.require_permission (the function named _check in the source):
grant when admin or the required permission is in the keys permission list,
else 403 naming the missing permission. -/
def require_permission_check (permission : String) (api_key : ApiKeyRow) :
    Except HttpError ApiKeyRow :=
  if "admin" ∈ api_key.permissions ∨ permission ∈ api_key.permissions then
    .ok api_key
  else
    .error (.forbidden
      ("API key " ++ api_key.name ++ " lacks required permission: " ++ permission))

/-- Embedding of dependencies.require_permission: reject unknown permission
names at route definition time (ValueError), otherwise return the check. -/
def require_permission (permission : String) :
    Except String (ApiKeyRow → Except HttpError ApiKeyRow) :=
  if permission ∈ VALID_PERMISSIONS then
    .ok (require_permission_check permission)
  else
    .error ("Unknown permission: " ++ permission)

/-- Truthiness of a Python Optional[str]: None and the empty string are
falsy. -/
def py_truthy_str (s : Option String) : Bool :=
  match s with
  | some t => !(t == "")
  | none => false

/-- Lexicographic order on character lists by code point, the order Python
sorted uses on strings. -/
def chars_le : List Char → List Char → Bool
  | [], _ => true
  | _ :: _, [] => false
  | a :: as, b :: bs =>
    if a.toNat < b.toNat then true
    else if b.toNat < a.toNat then false
    else chars_le as bs

/-- Lexicographic order on strings by code point. -/
def str_le (a b : String) : Bool :=
  chars_le a.data b.data

/-- Insertion of a string into a sorted list, used to model Python sorted. -/
def insert_sorted (s : String) : List String → List String
  | [] => [s]
  | t :: ts => if str_le s t then s :: t :: ts else t :: insert_sorted s ts

/-- Model of Python sorted on a list of strings (insertion sort). -/
def py_sorted : List String → List String
  | [] => []
  | s :: ss => insert_sorted s (py_sorted ss)

/-- Embedding of the permission-resolution prefix of
api_keys.create_api_key: reject tier together with a non-empty explicit
list, resolve a known tier from TIER_PERMISSIONS, else require a non-empty
explicit list all of whose tokens are valid. -/
def resolve_permissions (tier : Option String) (permissions : List String) :
    Except HttpError (List String) :=
  if py_truthy_str tier && !permissions.isEmpty then
    .error (.badRequest "Provide either tier or permissions, not both.")
  else if py_truthy_str tier then
    match TIER_PERMISSIONS.lookup (tier.getD "") with
    | none => .error (.badRequest ("Unknown tier " ++ tier.getD ""))
    | some resolved => .ok resolved
  else if permissions.isEmpty then
    .error (.badRequest "Provide either tier or a non-empty permissions list.")
  else if (permissions.filter (fun p => p ∉ VALID_PERMISSIONS)).isEmpty then
    .ok permissions
  else
    .error (.badRequest "Invalid permissions")

/-- Permission list stored on the ApiKey row created by
api_keys.create_api_key: the resolved permissions, sorted (the source stores
json.dumps applied to sorted resolved_permissions). -/
def created_key_permissions (tier : Option String) (permissions : List String) :
    Except HttpError (List String) :=
  (resolve_permissions tier permissions).map py_sorted

/-! ## Token vault (src/backend/app/services/graph_client.py, routers/auth.py) -/

/-- Result dictionary of an MSAL token exchange (acquire_token_by_refresh_token
or acquire_token_by_authorization_code): each Option field is a dictionary key
that may be absent. preferred_username and email_claim model the two
id_token_claims entries the callback handler reads. -/
structure TokenResult where
  error : Option String
  error_description : Option String
  access_token : Option String
  refresh_token : Option String
  expires_in : Option Nat
  preferred_username : Option String
  email_claim : Option String
deriving DecidableEq, Repr

/-- Row of the auth table (models.Auth): the single stored Credential.
The access and refresh secrets are Fernet encrypted. created_at and
updated_at are omitted: no claim concerns them. -/
structure AuthRow where
  email : String
  access_token : Ciphertext
  refresh_token : Ciphertext
  expires_at : Int
deriving DecidableEq, Repr

/-- Audit events emitted by the vault and the auth router (app/audit.py
call sites). -/
inductive AuditEvent where
  | token_refresh (email : String) (success : Bool) (error : Option String)
  | login_attempt (email : String) (success : Bool) (error : Option String)
deriving DecidableEq, Repr

/-- Tail of GraphClient._refresh_token after the upstream exchange returned
result: if the result has no access_token, emit an audit failure event with
the upstream error_description (default Unknown error) and raise; otherwise
re-encrypt and persist the new access token, the new refresh token only when
the result contains one, and expires_at = now + expires_in (default 3600),
then emit an audit success event. The Nat component counts upstream exchange
calls performed (here exactly one). -/
def refresh_exchange_apply (secret_key : String) (now : Int) (auth : AuthRow)
    (result : TokenResult) : List AuditEvent × Nat × Except String AuthRow :=
  match result.access_token with
  | none =>
    let error_msg := result.error_description.getD "Unknown error"
    ([.token_refresh auth.email false (some error_msg)], 1,
     .error ("Token refresh failed: " ++ error_msg))
  | some new_access =>
    let auth2 : AuthRow :=
      { auth with
        access_token := encrypt_token secret_key new_access,
        refresh_token :=
          match result.refresh_token with
          | some new_refresh => encrypt_token secret_key new_refresh
          | none => auth.refresh_token,
        expires_at := now + (result.expires_in.getD 3600 : Nat) }
    ([.token_refresh auth.email true none], 1, .ok auth2)

/-- Embedding of GraphClient._refresh_token: decrypt the stored refresh
secret (a decryption failure raises before any exchange), present it to the
upstream token-exchange endpoint, then apply the result. The exchange
function stands for msal acquire_token_by_refresh_token. -/
def _refresh_token (secret_key : String) (exchange : String → TokenResult)
    (now : Int) (auth : AuthRow) : List AuditEvent × Nat × Except String AuthRow :=
  match decrypt_token secret_key auth.refresh_token with
  | .error _ => ([], 0, .error "CryptoError: decryption failed")
  | .ok refresh_secret => refresh_exchange_apply secret_key now auth (exchange refresh_secret)

deriving instance DecidableEq for Except

/-- Outcome of GraphClient._get_access_token: the stored Credential row after
the call, the audit events emitted, the number of upstream refresh exchanges
performed, and the returned decrypted access token or the raised error. -/
structure VaultResult where
  store : AuthRow
  audit : List AuditEvent
  refreshes : Nat
  outcome : Except String String
deriving DecidableEq, Repr

/-- Embedding of GraphClient._get_access_token (the spec names it
get_valid_access_token): refresh when now is past expires_at minus the
5-minute (300 s) buffer, then return the decrypted (possibly just-refreshed)
access token. On refresh failure the raise propagates and the stored row is
untouched. -/
def get_valid_access_token (secret_key : String) (exchange : String → TokenResult)
    (now : Int) (auth : AuthRow) : VaultResult :=
  if now ≥ auth.expires_at - 300 then
    match _refresh_token secret_key exchange now auth with
    | (events, n, .error e) =>
      { store := auth, audit := events, refreshes := n, outcome := .error e }
    | (events, n, .ok auth2) =>
      match decrypt_token secret_key auth2.access_token with
      | .error _ =>
        { store := auth2, audit := events, refreshes := n,
          outcome := .error "CryptoError: decryption failed" }
      | .ok token =>
        { store := auth2, audit := events, refreshes := n, outcome := .ok token }
  else
    match decrypt_token secret_key auth.access_token with
    | .error _ =>
      { store := auth, audit := [], refreshes := 0,
        outcome := .error "CryptoError: decryption failed" }
    | .ok token =>
      { store := auth, audit := [], refreshes := 0, outcome := .ok token }

/-- Python or with a default: claims.get(a) or b is b when a is absent or
empty, else the value of a. -/
def py_or_default (a : Option String) (b : String) : String :=
  match a with
  | some s => if s == "" then b else s
  | none => b

/-- Email resolved by the auth.callback handler from the id_token claims:
preferred_username, falling back (Python or) to the email claim with default
unknown@user.com. -/
def callback_email (result : TokenResult) : String :=
  py_or_default result.preferred_username (result.email_claim.getD "unknown@user.com")

/-- Credential row constructed by the auth.callback handler: the access token
encrypted, the refresh token from the result encrypted with the empty string
as default when the result omits it, and expires_at = now + expires_in
(default 3600). -/
def callback_auth (secret_key : String) (result : TokenResult) (now : Int)
    (new_access : String) : AuthRow :=
  { email := callback_email result,
    access_token := encrypt_token secret_key new_access,
    refresh_token := encrypt_token secret_key (result.refresh_token.getD ""),
    expires_at := now + (result.expires_in.getD 3600 : Nat) }

/-- Embedding of the auth.callback handler body after the authorization-code
exchange returned result: reject an error result (400), reject a result with
no access token (400), otherwise clear the auth table and insert the single
new Credential row. Returns the new table content and the resolved email. -/
def callback (secret_key : String) (result : TokenResult) (now : Int)
    (_db : List AuthRow) : Except HttpError (List AuthRow × String) :=
  match result.error with
  | some err =>
    .error (.badRequest ("Authentication failed: " ++ result.error_description.getD err))
  | none =>
    match result.access_token with
    | none => .error (.badRequest "No access token received")
    | some new_access =>
      .ok ([callback_auth secret_key result now new_access], callback_email result)

/-! ## Job executor (src/backend/app/tasks/background.py) -/

/-- Entry of the failure ledger: the item together with the string of the
exception it raised. -/
structure FailedItem where
  item : String
  error : String
deriving DecidableEq, Repr

/-- The results dictionary built by run_batch_operation: a success ledger and
a failure ledger. -/
structure BatchResults where
  success : List String
  failed : List FailedItem
deriving DecidableEq, Repr

/-- Row of the background_jobs table (models.BackgroundJob). The result Text
column holds the JSON rendering of a results dictionary; it is modelled as
the decoded value. created_at and updated_at are omitted: no claim concerns
them. -/
structure JobRow where
  id : String
  job_type : String
  status : String
  progress : Nat
  total : Nat
  result : Option BatchResults
  error : Option String
deriving DecidableEq, Repr

/-- Lookup of a job row by id (select BackgroundJob where id = job_id). -/
def job_lookup (db : List JobRow) (job_id : String) : Option JobRow :=
  db.find? (fun j => j.id == job_id)

/-- Update of the row with the given id in the table. -/
def set_job (db : List JobRow) (job_id : String) (f : JobRow → JobRow) : List JobRow :=
  db.map (fun j => if j.id == job_id then f j else j)

/-- Field update performed by update_job_progress on the fetched row. -/
def job_running_row (status : String) (total progres : Nat) (j : JobRow) : JobRow :=
  { j with progress := progres, total := total, status := status }

/-- Embedding of background.update_job_progress: re-fetch the job by id in
the current session (scalar_one raises when absent), set progress, total and
status, and commit. The commit schedule commit_ok says whether the k-th
commit of the run succeeds; a failed commit raises and leaves the persisted
table unchanged. Returns the table and the next commit index. -/
def update_job_progress (commit_ok : Nat → Bool) (k : Nat) (db : List JobRow)
    (job_id : String) (progres total : Nat) (status : String) :
    Except String (List JobRow × Nat) :=
  match job_lookup db job_id with
  | none => .error "NoResultFound"
  | some _ =>
    if commit_ok k then
      .ok (set_job db job_id (job_running_row status total progres), k + 1)
    else
      .error "storage unavailable"

/-- Embedding of background.complete_job: re-fetch the job by id, set status
to complete when the error argument is falsy and to error otherwise, set
progress and total to total, store the results dictionary (None stays None;
a results dictionary is a non-empty dict, hence truthy and stored), store the
error, and commit. -/
def complete_job (commit_ok : Nat → Bool) (k : Nat) (db : List JobRow)
    (job_id : String) (total : Nat) (result : Option BatchResults)
    (error : Option String) : Except String (List JobRow × Nat) :=
  match job_lookup db job_id with
  | none => .error "NoResultFound"
  | some _ =>
    let status := if py_truthy_str error then "error" else "complete"
    if commit_ok k then
      .ok (set_job db job_id (fun j =>
        { j with status := status, progress := total, total := total,
                 result := result, error := error }), k + 1)
    else
      .error "storage unavailable"

/-- Per-item step of the run_batch_operation loop: on success append the item
to the success ledger, on any exception append the item with the exception
string to the failure ledger. -/
def batch_item_step (operation : String → Except String Unit)
    (results : BatchResults) (item : String) : BatchResults :=
  match operation item with
  | .ok _ => { results with success := results.success ++ [item] }
  | .error e => { results with failed := results.failed ++ [{ item := item, error := e }] }

/-- The item loop of run_batch_operation: for each item in input order, run
the operation inside try/except, then persist the incremented progress. An
exception from the progress persistence itself propagates (there is no
handler), returning the table as last persisted. -/
def batch_loop (commit_ok : Nat → Bool) (job_id : String) (total : Nat)
    (operation : String → Except String Unit) :
    List String → Nat → Nat → List JobRow → BatchResults →
    List JobRow × Except String (Nat × BatchResults)
  | [], _, k, db, results => (db, .ok (k, results))
  | item :: rest, i, k, db, results =>
    let results2 := batch_item_step operation results item
    match update_job_progress commit_ok k db job_id (i + 1) total "running" with
    | .error e => (db, .error e)
    | .ok (db2, k2) => batch_loop commit_ok job_id total operation rest (i + 1) k2 db2 results2

/-- Embedding of background.run_batch_operation: transition the job to
running with progress 0, run the item loop, then complete the job with the
results dictionary and no error. Any exception of the infrastructure itself
(a failed commit, a missing row) propagates out (there is no handler); the
second component is the returned results dictionary or that exception. -/
def run_batch_operation (commit_ok : Nat → Bool) (db : List JobRow)
    (job_id : String) (items : List String)
    (operation : String → Except String Unit) :
    List JobRow × Except String BatchResults :=
  let total := items.length
  match update_job_progress commit_ok 0 db job_id 0 total "running" with
  | .error e => (db, .error e)
  | .ok (db1, k1) =>
    match batch_loop commit_ok job_id total operation items 0 k1 db1
        { success := [], failed := [] } with
    | (db2, .error e) => (db2, .error e)
    | (db2, .ok (k2, results)) =>
      match complete_job commit_ok k2 db2 job_id total (some results) none with
      | .error e => (db2, .error e)
      | .ok (db3, _) => (db3, .ok results)

/-- Boolean success of an operation on an item. -/
def op_ok (operation : String → Except String Unit) (item : String) : Bool :=
  match operation item with
  | .ok _ => true
  | .error _ => false

/-- The success ledger produced by a full run: the items whose operation
succeeded, in original relative order. -/
def batch_successes (operation : String → Except String Unit)
    (items : List String) : List String :=
  items.filter (op_ok operation)

/-- The failure ledger produced by a full run: the failing items paired with
their errors, in original relative order. -/
def batch_failures (operation : String → Except String Unit)
    (items : List String) : List FailedItem :=
  items.filterMap (fun item =>
    match operation item with
    | .ok _ => none
    | .error e => some { item := item, error := e })

/-! ## Concrete rows and inputs used to instantiate the theorems -/

/-- Active ApiKey row created with tier openclaw (permissions stored sorted,
as the creation handler does). -/
def openclaw_key : ApiKeyRow :=
  { id := 1, key_hash := sha256_digest "raw-openclaw-secret", name := "openclaw-bot",
    permissions := ["read:calendar", "read:contacts", "read:mail",
                    "write:calendar", "write:contacts", "write:draft"],
    tier := some "openclaw", last_used_at := none, is_active := true }

/-- Active ApiKey row used to exercise the authentication path. -/
def active_key_demo : ApiKeyRow :=
  { id := 2, key_hash := sha256_digest "raw-demo-secret", name := "demo-bot",
    permissions := ["read:mail"], tier := none, last_used_at := none,
    is_active := true }

/-- Revoked (is_active = false) ApiKey row whose raw secret is
raw-demo-secret. -/
def inactive_key_demo : ApiKeyRow :=
  { id := 3, key_hash := sha256_digest "raw-demo-secret", name := "revoked-bot",
    permissions := ["read:mail"], tier := none, last_used_at := none,
    is_active := false }

/-- Stored Credential row whose secrets are encrypted under the operator
secret sk and whose token expires at time 999. -/
def auth_demo : AuthRow :=
  { email := "user@example.com",
    access_token := encrypt_token "sk" "old-access",
    refresh_token := encrypt_token "sk" "old-refresh",
    expires_at := 999 }

/-- Upstream exchange that fails: no access token, with an error
description. -/
def failing_exchange : String → TokenResult := fun _ =>
  { error := some "invalid_grant", error_description := some "expired grant",
    access_token := none, refresh_token := none, expires_in := none,
    preferred_username := none, email_claim := none }

/-- Upstream exchange that succeeds with a fresh access token and ttl 3600
but returns no new refresh token. -/
def renewing_exchange : String → TokenResult := fun _ =>
  { error := none, error_description := none, access_token := some "new-access",
    refresh_token := none, expires_in := some 3600,
    preferred_username := none, email_claim := none }

/-- Authorization-code exchange result carrying an access token but no
refresh_token key. -/
def code_result_demo : TokenResult :=
  { error := none, error_description := none, access_token := some "acc-tok",
    refresh_token := none, expires_in := some 3600,
    preferred_username := some "user@example.com", email_claim := none }

/-- Pending job row as created by create_job. -/
def job_demo : JobRow :=
  { id := "j1", job_type := "batch_move", status := "pending", progress := 0,
    total := 0, result := none, error := none }

/-- Per-item operation where exactly the third item raises. -/
def op_demo : String → Except String Unit := fun item =>
  if item == "i3" then .error "boom" else .ok ()

/-- The five-item input of the executor test property. -/
def items_demo : List String := ["i1", "i2", "i3", "i4", "i5"]

/-- The results dictionary expected for items_demo under op_demo. -/
def results_demo : BatchResults :=
  { success := ["i1", "i2", "i4", "i5"],
    failed := [{ item := "i3", error := "boom" }] }

/-- The job row expected after running items_demo under op_demo. -/
def job_demo_done : JobRow :=
  { id := "j1", job_type := "batch_move", status := "complete", progress := 5,
    total := 5, result := some results_demo, error := none }

/-! ## Theorems -/

/-- C9: for every plaintext and every operator secret, decrypting the
encryption under the key derived from the same secret returns the plaintext;
decrypting under the key derived from any different secret raises CryptoError
rather than returning corrupted plaintext. -/
theorem encrypt_decrypt_spec (x secret_key wrong_key : String) :
    decrypt_token secret_key (encrypt_token secret_key x) = .ok x
    ∧ (wrong_key ≠ secret_key →
       decrypt_token wrong_key (encrypt_token secret_key x) = .error .invalidToken) := by
  constructor
  · simp [decrypt_token, encrypt_token, fernet_decrypt, fernet_encrypt]
  · intro h
    have hk : ¬ (get_fernet secret_key = get_fernet wrong_key) := by
      intro he
      exact h (congrArg SymKey.password he).symm
    simp [decrypt_token, encrypt_token, fernet_decrypt, fernet_encrypt, hk]

theorem encrypt_decrypt_spec_witness :
    decrypt_token "s1" (encrypt_token "s1" "tok") = .ok "tok"
    ∧ decrypt_token "s2" (encrypt_token "s1" "tok") = .error .invalidToken := by
  have h := encrypt_decrypt_spec "tok" "s1" "s2"
  exact ⟨h.1, h.2 (by decide)⟩

/-- C1: authorize grants access if and only if the keys effective permission
set (stored resolved at creation) contains admin or the required permission,
and otherwise fails with 403 naming the missing permission; a key created
with tier openclaw resolves to the six openclaw permissions, and for a key
holding exactly those, write:mail is forbidden while read:mail succeeds. -/
theorem authorize_permission_spec (api_key : ApiKeyRow) (permission : String) :
    ((require_permission_check permission api_key = .ok api_key) ↔
      ("admin" ∈ api_key.permissions ∨ permission ∈ api_key.permissions))
    ∧ (("admin" ∉ api_key.permissions ∧ permission ∉ api_key.permissions) →
        require_permission_check permission api_key =
          .error (.forbidden ("API key " ++ api_key.name ++
            " lacks required permission: " ++ permission)))
    ∧ (created_key_permissions (some "openclaw") [] =
        .ok ["read:calendar", "read:contacts", "read:mail",
             "write:calendar", "write:contacts", "write:draft"])
    ∧ (∀ key : ApiKeyRow,
        key.permissions = ["read:calendar", "read:contacts", "read:mail",
             "write:calendar", "write:contacts", "write:draft"] →
        (require_permission_check "write:mail" key =
          .error (.forbidden ("API key " ++ key.name ++
            " lacks required permission: " ++ "write:mail"))
         ∧ require_permission_check "read:mail" key = .ok key)) := by
  refine ⟨?_, ?_, by decide, ?_⟩
  · unfold require_permission_check
    split
    · rename_i h
      simpa using h
    · rename_i h
      simp [h]
  · rintro ⟨h1, h2⟩
    unfold require_permission_check
    rw [if_neg]
    rintro (h | h)
    · exact h1 h
    · exact h2 h
  · intro key hperm
    constructor
    · unfold require_permission_check
      rw [if_neg]
      rw [hperm]
      decide
    · unfold require_permission_check
      rw [if_pos]
      rw [hperm]
      decide

theorem authorize_permission_spec_witness :
    require_permission_check "write:mail" openclaw_key =
      .error (.forbidden ("API key " ++ openclaw_key.name ++
        " lacks required permission: " ++ "write:mail"))
    ∧ require_permission_check "read:mail" openclaw_key = .ok openclaw_key :=
  (authorize_permission_spec openclaw_key "write:mail").2.2.2 openclaw_key rfl

/-- C2: a revoked (is_active = false) ApiKey row can never authenticate: the
lookup filters on is_active, so even the correct raw secret of that key
yields 401 (given the unique-hash table invariant); likewise when no stored
hash matches the presented secret. -/
theorem authenticate_inactive_unauthorized (db : List ApiKeyRow)
    (raw_key : String) (now : Int) (commit_ok : Bool) :
    ((∃ k, k ∈ db ∧ k.is_active = false ∧ k.key_hash = sha256_digest raw_key) →
      db.Pairwise (fun a b => a.key_hash ≠ b.key_hash) →
      verify_api_key db raw_key now commit_ok =
        .httpError (.unauthorized "Invalid or inactive API key."))
    ∧ ((∀ k, k ∈ db → k.key_hash ≠ sha256_digest raw_key) →
      verify_api_key db raw_key now commit_ok =
        .httpError (.unauthorized "Invalid or inactive API key.")) := by
  constructor
  · rintro ⟨k, hk, hina, hhash⟩ hpw
    have hnone : db.find?
        (fun x => x.key_hash == sha256_digest raw_key && x.is_active) = none := by
      rw [List.find?_eq_none]
      intro x hx
      simp only [Bool.and_eq_true, beq_iff_eq, not_and]
      intro hxh
      by_cases hxk : x = k
      · subst hxk
        simp [hina]
      · exfalso
        have hsymm : Symmetric (fun a b : ApiKeyRow => a.key_hash ≠ b.key_hash) :=
          fun a b hab heq => hab heq.symm
        exact (List.Pairwise.forall hsymm hpw hx hk hxk) (hxh.trans hhash.symm)
    simp [verify_api_key, hnone]
  · intro hnomatch
    have hnone : db.find?
        (fun x => x.key_hash == sha256_digest raw_key && x.is_active) = none := by
      rw [List.find?_eq_none]
      intro x hx
      simp only [Bool.and_eq_true, beq_iff_eq, not_and]
      intro hxh
      exact absurd hxh (hnomatch x hx)
    simp [verify_api_key, hnone]

theorem authenticate_inactive_unauthorized_witness :
    verify_api_key [inactive_key_demo] "raw-demo-secret" 100 true =
      .httpError (.unauthorized "Invalid or inactive API key.") :=
  (authenticate_inactive_unauthorized [inactive_key_demo] "raw-demo-secret" 100 true).1
    ⟨inactive_key_demo, by decide, by decide, by decide⟩ (by decide)

/-- C8 (code bug): the source comments describe the last_used_at persist as
fire-and-forget, but the commit is awaited with no exception handler, so a
persist failure propagates and the request fails instead of returning the
ApiKey; with a succeeding commit, last_used_at is set to now. -/
theorem last_used_commit_failure_demo :
    verify_api_key [active_key_demo] "raw-demo-secret" 100 false =
      .raised "database commit failed"
    ∧ verify_api_key [active_key_demo] "raw-demo-secret" 100 true =
      .ok ({ active_key_demo with last_used_at := some 100 },
           [{ active_key_demo with last_used_at := some 100 }]) := by
  decide

/-- C3: when the due refresh exchange returns no access token, the vault call
raises the upstream auth error carrying the upstream error description, emits
exactly one audit failure event, and returns the stored Credential row
completely unchanged (no field was assigned before the raise). -/
theorem refresh_failure_preserves_credential (secret_key : String)
    (exchange : String → TokenResult) (now : Int) (auth : AuthRow) (rt : String)
    (hdec : decrypt_token secret_key auth.refresh_token = .ok rt)
    (hfail : (exchange rt).access_token = none)
    (hnow : now ≥ auth.expires_at - 300) :
    get_valid_access_token secret_key exchange now auth =
      { store := auth,
        audit := [.token_refresh auth.email false
          (some ((exchange rt).error_description.getD "Unknown error"))],
        refreshes := 1,
        outcome := .error ("Token refresh failed: " ++
          (exchange rt).error_description.getD "Unknown error") } := by
  simp only [get_valid_access_token, _refresh_token, refresh_exchange_apply,
    if_pos hnow, hdec, hfail]

theorem refresh_failure_preserves_credential_witness :
    get_valid_access_token "sk" failing_exchange 1000 auth_demo =
      { store := auth_demo,
        audit := [.token_refresh "user@example.com" false (some "expired grant")],
        refreshes := 1,
        outcome := .error ("Token refresh failed: expired grant") } := by
  have h := refresh_failure_preserves_credential "sk" failing_exchange 1000 auth_demo
    "old-refresh" (by decide) (by decide) (by decide)
  exact h.trans (by decide)

/-- C4: the vault performs a refresh exchange exactly when now is at or past
expires_at minus the 5-minute buffer; in particular with expires_at one
second in the past, the call performs exactly one exchange, stores
expires_at = now + the upstream ttl (in the future whenever the ttl is
positive), and returns the decrypted just-refreshed access token. -/
theorem refresh_threshold_spec (secret_key : String)
    (exchange : String → TokenResult) (now : Int) (auth : AuthRow) (rt : String)
    (hdec : decrypt_token secret_key auth.refresh_token = .ok rt) :
    ((get_valid_access_token secret_key exchange now auth).refreshes =
      if now ≥ auth.expires_at - 300 then 1 else 0)
    ∧ (auth.expires_at = now - 1 →
       ∀ tok ttl, (exchange rt).access_token = some tok →
         (exchange rt).expires_in = some ttl →
         (get_valid_access_token secret_key exchange now auth).refreshes = 1
         ∧ (get_valid_access_token secret_key exchange now auth).store.expires_at
             = now + ttl
         ∧ (0 < ttl →
             now < (get_valid_access_token secret_key exchange now auth).store.expires_at)
         ∧ (get_valid_access_token secret_key exchange now auth).outcome = .ok tok) := by
  constructor
  · by_cases hnow : now ≥ auth.expires_at - 300
    · rw [if_pos hnow]
      cases hacc : (exchange rt).access_token with
      | none =>
        simp only [get_valid_access_token, _refresh_token, refresh_exchange_apply,
          if_pos hnow, hdec, hacc]
      | some tok =>
        simp only [get_valid_access_token, _refresh_token, refresh_exchange_apply,
          if_pos hnow, hdec, hacc]
        simp [decrypt_token, encrypt_token, fernet_decrypt, fernet_encrypt]
    · rw [if_neg hnow]
      simp only [get_valid_access_token, if_neg hnow]
      cases hdec2 : decrypt_token secret_key auth.access_token <;> simp [hdec2]
  · intro hexp tok ttl hacc httl
    have hnow : now ≥ auth.expires_at - 300 := by
      rw [hexp]
      omega
    have hrun : get_valid_access_token secret_key exchange now auth =
        { store := { auth with
            access_token := encrypt_token secret_key tok,
            refresh_token := match (exchange rt).refresh_token with
              | some r => encrypt_token secret_key r
              | none => auth.refresh_token,
            expires_at := now + ttl },
          audit := [.token_refresh auth.email true none],
          refreshes := 1,
          outcome := .ok tok } := by
      simp only [get_valid_access_token, _refresh_token, refresh_exchange_apply,
        if_pos hnow, hdec, hacc, httl]
      simp [decrypt_token, encrypt_token, fernet_decrypt, fernet_encrypt]
    rw [hrun]
    refine ⟨rfl, rfl, ?_, rfl⟩
    intro hpos
    simp only []
    omega

theorem refresh_threshold_spec_witness :
    (get_valid_access_token "sk" renewing_exchange 1000 auth_demo).refreshes = 1
    ∧ (get_valid_access_token "sk" renewing_exchange 1000 auth_demo).store.expires_at
        = 1000 + 3600
    ∧ 1000 < (get_valid_access_token "sk" renewing_exchange 1000 auth_demo).store.expires_at
    ∧ (get_valid_access_token "sk" renewing_exchange 1000 auth_demo).outcome
        = .ok "new-access" := by
  have h := (refresh_threshold_spec "sk" renewing_exchange 1000
    { auth_demo with expires_at := 999 } "old-refresh" (by decide)).2
    (by decide) "new-access" 3600 (by decide) (by decide)
  exact ⟨h.1, h.2.1, h.2.2.1 (by decide), h.2.2.2⟩

/-- C5: when the due refresh exchange succeeds but omits a new refresh token,
the vault persists the new access secret and new expires_at while the stored
refresh secret stays the very same ciphertext, still decrypting to the prior
refresh token; the refresh secret is replaced exactly when the upstream
response includes one. -/
theorem refresh_secret_retention (secret_key : String)
    (exchange : String → TokenResult) (now : Int) (auth : AuthRow)
    (rt tok : String)
    (hdec : decrypt_token secret_key auth.refresh_token = .ok rt)
    (hnow : now ≥ auth.expires_at - 300)
    (hacc : (exchange rt).access_token = some tok) :
    ((exchange rt).refresh_token = none →
      (get_valid_access_token secret_key exchange now auth).store.refresh_token
        = auth.refresh_token
      ∧ decrypt_token secret_key
          (get_valid_access_token secret_key exchange now auth).store.refresh_token
        = .ok rt
      ∧ (get_valid_access_token secret_key exchange now auth).store.access_token
        = encrypt_token secret_key tok
      ∧ (get_valid_access_token secret_key exchange now auth).store.expires_at
        = now + ((exchange rt).expires_in.getD 3600 : Nat))
    ∧ (∀ r, (exchange rt).refresh_token = some r →
        (get_valid_access_token secret_key exchange now auth).store.refresh_token
          = encrypt_token secret_key r) := by
  constructor
  · intro hnort
    have hrun : get_valid_access_token secret_key exchange now auth =
        { store := { auth with
            access_token := encrypt_token secret_key tok,
            refresh_token := auth.refresh_token,
            expires_at := now + ((exchange rt).expires_in.getD 3600 : Nat) },
          audit := [.token_refresh auth.email true none],
          refreshes := 1,
          outcome := .ok tok } := by
      simp only [get_valid_access_token, _refresh_token, refresh_exchange_apply,
        if_pos hnow, hdec, hacc, hnort]
      simp [decrypt_token, encrypt_token, fernet_decrypt, fernet_encrypt]
    rw [hrun]
    exact ⟨rfl, hdec, rfl, rfl⟩
  · intro r hrt
    have hrun : get_valid_access_token secret_key exchange now auth =
        { store := { auth with
            access_token := encrypt_token secret_key tok,
            refresh_token := encrypt_token secret_key r,
            expires_at := now + ((exchange rt).expires_in.getD 3600 : Nat) },
          audit := [.token_refresh auth.email true none],
          refreshes := 1,
          outcome := .ok tok } := by
      simp only [get_valid_access_token, _refresh_token, refresh_exchange_apply,
        if_pos hnow, hdec, hacc, hrt]
      simp [decrypt_token, encrypt_token, fernet_decrypt, fernet_encrypt]
    rw [hrun]

theorem refresh_secret_retention_witness :
    (get_valid_access_token "sk" renewing_exchange 1000 auth_demo).store.refresh_token
      = auth_demo.refresh_token
    ∧ decrypt_token "sk"
        (get_valid_access_token "sk" renewing_exchange 1000 auth_demo).store.refresh_token
      = .ok "old-refresh" := by
  have h := (refresh_secret_retention "sk" renewing_exchange 1000 auth_demo
    "old-refresh" "new-access" (by decide) (by decide) (by decide)).1 (by decide)
  exact ⟨h.1, h.2.1⟩

/-- C10: when the authorization-code exchange result carries an access token
but no refresh_token key, the callback handler still creates the Credential,
storing the encryption of the empty string as the refresh secret, and any
subsequent refresh exchange on that Credential presents the empty string as
the refresh token. -/
theorem callback_empty_refresh_secret (secret_key : String)
    (result : TokenResult) (now : Int) (db : List AuthRow) (new_access : String)
    (herr : result.error = none)
    (hacc : result.access_token = some new_access)
    (hrt : result.refresh_token = none) :
    callback secret_key result now db =
      .ok ([callback_auth secret_key result now new_access], callback_email result)
    ∧ (callback_auth secret_key result now new_access).refresh_token
      = encrypt_token secret_key ""
    ∧ decrypt_token secret_key
        (callback_auth secret_key result now new_access).refresh_token = .ok ""
    ∧ (∀ exchange now2,
        _refresh_token secret_key exchange now2
            (callback_auth secret_key result now new_access)
          = refresh_exchange_apply secret_key now2
              (callback_auth secret_key result now new_access) (exchange "")) := by
  have hrow : (callback_auth secret_key result now new_access).refresh_token
      = encrypt_token secret_key "" := by
    unfold callback_auth
    rw [hrt]
    rfl
  have hdec0 : decrypt_token secret_key
      (callback_auth secret_key result now new_access).refresh_token = .ok "" := by
    rw [hrow]
    simp [decrypt_token, encrypt_token, fernet_decrypt, fernet_encrypt]
  refine ⟨?_, hrow, hdec0, ?_⟩
  · simp only [callback, herr, hacc]
  · intro exchange now2
    simp only [_refresh_token, hdec0]

theorem callback_empty_refresh_secret_witness :
    callback "sk" code_result_demo 50 [] =
      .ok ([callback_auth "sk" code_result_demo 50 "acc-tok"], "user@example.com")
    ∧ decrypt_token "sk"
        (callback_auth "sk" code_result_demo 50 "acc-tok").refresh_token = .ok "" := by
  have h := callback_empty_refresh_secret "sk" code_result_demo 50 [] "acc-tok"
    (by decide) (by decide) (by decide)
  exact ⟨h.1.trans (by decide), h.2.2.1⟩

/-! ## Executor helper lemmas -/

theorem job_running_row_id (status : String) (total p : Nat) (j : JobRow) :
    (job_running_row status total p j).id = j.id := rfl

theorem set_job_set_job (db : List JobRow) (jid : String) (f g : JobRow → JobRow)
    (hf : ∀ j, (f j).id = j.id) :
    set_job (set_job db jid f) jid g = set_job db jid (fun j => g (f j)) := by
  induction db with
  | nil => rfl
  | cons j rest ih =>
    by_cases h : (j.id == jid) = true
    · have h2 : ((f j).id == jid) = true := by
        rw [hf j]
        exact h
      simp only [set_job, List.map_cons, h, if_true, h2] at ih ⊢
      exact congrArg _ ih
    · simp only [set_job, List.map_cons, if_neg h] at ih ⊢
      exact congrArg _ ih

theorem job_lookup_set_job (db : List JobRow) (jid : String) (f : JobRow → JobRow)
    (hf : ∀ j, (f j).id = j.id) :
    job_lookup (set_job db jid f) jid = (job_lookup db jid).map f := by
  induction db with
  | nil => rfl
  | cons j rest ih =>
    simp only [job_lookup, set_job, List.map_cons, List.find?_cons] at ih ⊢
    by_cases h : (j.id == jid) = true
    · have h2 : ((f j).id == jid) = true := by
        rw [hf j]
        exact h
      simp [h, h2]
    · have hb : (j.id == jid) = false := by
        cases hx : (j.id == jid)
        · rfl
        · exact absurd hx h
      have hb2 : ((f j).id == jid) = false := by
        rw [hf j]
        exact hb
      simp only [hb, Bool.false_eq_true, if_false]
      exact ih

theorem job_present_set_job (db : List JobRow) (jid : String) (f : JobRow → JobRow)
    (hf : ∀ j, (f j).id = j.id) (hp : (job_lookup db jid).isSome = true) :
    (job_lookup (set_job db jid f) jid).isSome = true := by
  rw [job_lookup_set_job db jid f hf]
  cases hl : job_lookup db jid
  · rw [hl] at hp
    exact absurd hp (by decide)
  · rfl

theorem batch_successes_cons (operation : String → Except String Unit)
    (item : String) (rest : List String) :
    batch_successes operation (item :: rest) =
      (if op_ok operation item then [item] else []) ++ batch_successes operation rest := by
  by_cases h : op_ok operation item = true
  · simp [batch_successes, List.filter_cons, h]
  · simp [batch_successes, List.filter_cons, h]

theorem batch_failures_cons (operation : String → Except String Unit)
    (item : String) (rest : List String) :
    batch_failures operation (item :: rest) =
      (match operation item with
       | .ok _ => []
       | .error e => [{ item := item, error := e }]) ++ batch_failures operation rest := by
  cases h : operation item <;> simp [batch_failures, List.filterMap_cons, h]

/-- Behaviour of the item loop when every commit succeeds: the table gets the
job row set to running with progress advanced past every item, and the
ledgers extend by the successes and failures of the items in order. -/
theorem batch_loop_all_commits (jid : String) (total : Nat)
    (operation : String → Except String Unit) :
    ∀ (items : List String) (i k : Nat) (db : List JobRow) (acc : BatchResults),
      (job_lookup db jid).isSome = true →
      batch_loop (fun _ => true) jid total operation items i k db acc =
        ((if items.isEmpty then db
          else set_job db jid (job_running_row "running" total (i + items.length))),
         .ok (k + items.length,
           { success := acc.success ++ batch_successes operation items,
             failed := acc.failed ++ batch_failures operation items })) := by
  intro items
  induction items with
  | nil =>
    intro i k db acc hp
    simp [batch_loop, batch_successes, batch_failures]
  | cons item rest ih =>
    intro i k db acc hp
    obtain ⟨j0, hj0⟩ := Option.isSome_iff_exists.mp hp
    have hj0l : job_lookup db jid = some j0 := hj0
    have hpres2 : (job_lookup (set_job db jid (job_running_row "running" total (i + 1))) jid).isSome = true :=
      job_present_set_job db jid _ (fun _ => rfl) hp
    simp only [batch_loop, update_job_progress, hj0l, if_true]
    rw [ih (i + 1) (k + 1) _ _ hpres2]
    simp only [List.isEmpty_cons, List.length_cons, Bool.false_eq_true, if_false,
      Prod.mk.injEq, Except.ok.injEq]
    refine ⟨?_, ?_, ?_⟩
    · cases rest with
      | nil =>
        simp
      | cons r rs =>
        rw [if_neg (by simp)]
        rw [set_job_set_job db jid (job_running_row "running" total (i + 1))
          (job_running_row "running" total (i + 1 + (r :: rs).length)) (fun _ => rfl)]
        have harith : i + 1 + (r :: rs).length = i + ((r :: rs).length + 1) := by
          omega
        rw [harith]
        rfl
    · omega
    · cases hop : operation item with
      | ok u =>
        simp [batch_item_step, hop, batch_successes_cons, batch_failures_cons,
          op_ok]
      | error e =>
        simp [batch_item_step, hop, batch_successes_cons, batch_failures_cons,
          op_ok]

/-- The item loop consumes its input front to back: running it on pre ++ post
is running it on pre and continuing on post from the intermediate table,
ledger and commit counter, for every commit schedule. -/
theorem batch_loop_decompose (commit_ok : Nat → Bool) (jid : String)
    (total : Nat) (operation : String → Except String Unit)
    (post : List String) :
    ∀ (pre : List String) (i k : Nat) (db : List JobRow) (acc : BatchResults),
      batch_loop commit_ok jid total operation (pre ++ post) i k db acc =
        (match batch_loop commit_ok jid total operation pre i k db acc with
         | (dbm, .error e) => (dbm, .error e)
         | (dbm, .ok (km, accm)) =>
            batch_loop commit_ok jid total operation post (i + pre.length) km dbm accm) := by
  intro pre
  induction pre with
  | nil =>
    intro i k db acc
    simp [batch_loop]
  | cons p ps ih =>
    intro i k db acc
    simp only [List.cons_append, batch_loop]
    cases hu : update_job_progress commit_ok k db jid (i + 1) total "running" with
    | error e =>
      simp only [hu]
    | ok v =>
      obtain ⟨db2, k2⟩ := v
      simp only [hu, List.append_eq]
      rw [ih (i + 1) k2 db2 (batch_item_step operation acc p)]
      have harith : i + 1 + ps.length = i + (ps.length + 1) := by
        omega
      simp only [List.length_cons, harith]

/-- C6: with every persistence step succeeding, run_batch_operation processes
the items in input order (the run on pre ++ post is the run on pre continued
on post from the intermediate persisted state), persists progress equal to the
number of items processed after each item regardless of that items outcome,
never aborts the batch on an item failure, and finally persists status
complete, progress = total = item count, and result ledgers holding exactly
the failing items with their errors and all other items, each in original
relative order; in particular for five items where the third raises. -/
theorem run_batch_operation_spec (db : List JobRow) (jid : String)
    (items : List String) (operation : String → Except String Unit)
    (hp : (job_lookup db jid).isSome = true) :
    (run_batch_operation (fun _ => true) db jid items operation =
      (set_job db jid (fun j =>
        { j with status := "complete", progress := items.length,
                 total := items.length,
                 result := some { success := batch_successes operation items,
                                  failed := batch_failures operation items },
                 error := none }),
       .ok { success := batch_successes operation items,
             failed := batch_failures operation items }))
    ∧ (∀ pre x post, items = pre ++ x :: post →
        (job_lookup (batch_loop (fun _ => true) jid items.length operation
            (pre ++ [x]) 0 1
            (set_job db jid (job_running_row "running" items.length 0))
            { success := [], failed := [] }).1 jid).map
          (fun j => (j.progress, j.status))
          = some (pre.length + 1, "running"))
    ∧ (∀ (commit_ok : Nat → Bool) (pre post : List String) (i k : Nat)
         (db2 : List JobRow) (acc : BatchResults),
        batch_loop commit_ok jid items.length operation (pre ++ post) i k db2 acc =
          (match batch_loop commit_ok jid items.length operation pre i k db2 acc with
           | (dbm, .error e) => (dbm, .error e)
           | (dbm, .ok (km, accm)) =>
              batch_loop commit_ok jid items.length operation post
                (i + pre.length) km dbm accm))
    ∧ (run_batch_operation (fun _ => true) [job_demo] "j1" items_demo op_demo =
        ([job_demo_done], .ok results_demo)) := by
  obtain ⟨j0, hj0⟩ := Option.isSome_iff_exists.mp hp
  have hj0l : job_lookup db jid = some j0 := hj0
  have hp1 : (job_lookup (set_job db jid
      (job_running_row "running" items.length 0)) jid).isSome = true :=
    job_present_set_job db jid _ (fun _ => rfl) hp
  refine ⟨?_, ?_, ?_, by decide⟩
  · simp only [run_batch_operation, update_job_progress, hj0l, if_true]
    rw [batch_loop_all_commits jid items.length operation items 0 1 _ _ hp1]
    by_cases hni : items.isEmpty
    · have hitems : items = [] := List.isEmpty_iff.mp hni
      subst hitems
      simp only [List.isEmpty_nil, if_true, List.length_nil]
      have hp2 : job_lookup (set_job db jid (job_running_row "running" 0 0)) jid
          = some (job_running_row "running" 0 0 j0) := by
        rw [job_lookup_set_job db jid (job_running_row "running" 0 0) (fun _ => rfl),
          hj0l]
        rfl
      simp only [complete_job, hp2, py_truthy_str, if_true, batch_successes,
        batch_failures, List.filter_nil, List.filterMap_nil]
      rw [set_job_set_job db jid (job_running_row "running" 0 0) _ (fun _ => rfl)]
      rfl
    · rw [if_neg hni]
      have hp2l : job_lookup (set_job (set_job db jid
          (job_running_row "running" items.length 0)) jid
          (job_running_row "running" items.length (0 + items.length))) jid
          = some (job_running_row "running" items.length (0 + items.length)
              (job_running_row "running" items.length 0 j0)) := by
        rw [job_lookup_set_job (set_job db jid (job_running_row "running" items.length 0))
            jid (job_running_row "running" items.length (0 + items.length)) (fun _ => rfl),
          job_lookup_set_job db jid (job_running_row "running" items.length 0) (fun _ => rfl),
          hj0l]
        rfl
      simp only [complete_job, hp2l, py_truthy_str, if_true]
      rw [set_job_set_job (set_job db jid (job_running_row "running" items.length 0))
          jid (job_running_row "running" items.length (0 + items.length)) _ (fun _ => rfl),
        set_job_set_job db jid (job_running_row "running" items.length 0) _ (fun _ => rfl)]
      rfl
  · intro pre x post hsplit
    rw [batch_loop_all_commits jid items.length operation (pre ++ [x]) 0 1 _ _ hp1]
    rw [if_neg (by simp)]
    rw [job_lookup_set_job (set_job db jid (job_running_row "running" items.length 0))
        jid (job_running_row "running" items.length (0 + (pre ++ [x]).length)) (fun _ => rfl),
      job_lookup_set_job db jid (job_running_row "running" items.length 0) (fun _ => rfl),
      hj0l]
    simp [job_running_row]
  · intro commit_ok pre post i k db2 acc
    exact batch_loop_decompose commit_ok jid items.length operation post pre i k db2 acc

theorem run_batch_operation_spec_witness :
    run_batch_operation (fun _ => true) [job_demo] "j1" items_demo op_demo =
      (set_job [job_demo] "j1" (fun j =>
        { j with status := "complete", progress := items_demo.length,
                 total := items_demo.length,
                 result := some { success := batch_successes op_demo items_demo,
                                  failed := batch_failures op_demo items_demo },
                 error := none }),
       .ok { success := batch_successes op_demo items_demo,
             failed := batch_failures op_demo items_demo }) :=
  (run_batch_operation_spec [job_demo] "j1" items_demo op_demo (by decide)).1

/-- C7 (code bug): run_batch_operation has no handler around its own
infrastructure, and complete_job is never invoked with an error, so when a
progress commit fails the exception propagates and the job stays in its last
persisted state (here pending, error none) instead of being transitioned to
status error with the caught message; an item failure, by contrast, still
ends the job in status complete. -/
theorem executor_infra_failure_demo :
    run_batch_operation (fun _ => false) [job_demo] "j1" ["i1"] (fun _ => .ok ()) =
      ([job_demo], .error "storage unavailable")
    ∧ job_demo.status = "pending"
    ∧ job_demo.error = none
    ∧ ((job_lookup (run_batch_operation (fun _ => true) [job_demo] "j1" ["i1"]
          (fun _ => .error "item failed")).1 "j1").map JobRow.status
        = some "complete") := by
  decide

end MS365
